import Mathlib

/-!
Verification of the pysg scene-graph library's math utilities (pysg/math.py)
and of the render pass (pysg/renderer.py).

Python floats are modelled as real numbers; `math.sqrt`, `math.atan2`,
`math.asin`, `np.rad2deg` are modelled by their exact real counterparts.
Stateful rendering code is modelled as an event trace.
-/

noncomputable section

/-- A 3-component vector, modelling pyrr `Vector3` / numpy 3-vectors of floats. -/
structure Vec3 where
  x : ℝ
  y : ℝ
  z : ℝ

/-- The quadrature term `q` computed in `solve_quadratic_equation`
(math.py line 86): `q = -0.5*(b + math.sqrt(delta)) if b > 0 else
-0.5*(b - math.sqrt(delta))`. -/
def quadratic_q (b delta : ℝ) : ℝ :=
  if 0 < b then -0.5 * (b + Real.sqrt delta) else -0.5 * (b - Real.sqrt delta)

/-- `pysg.math.solve_quadratic_equation` (math.py lines 67-95).
`delta = b*b - 4*a*c`; two roots `[q/a, c/q]` when `delta > 0`, one root
`[-b/(2a)]` when `delta == 0`, no roots otherwise. -/
def solve_quadratic_equation (a b c : ℝ) : List ℝ :=
  if 0 < b * b - 4 * a * c then
    [quadratic_q b (b * b - 4 * a * c) / a, c / quadratic_q b (b * b - 4 * a * c)]
  else if b * b - 4 * a * c = 0 then
    [-b / (2 * a)]
  else
    []

/-- C1: for every a, b, c with a nonzero, `solve_quadratic_equation` returns the
empty list when the discriminant `b*b - 4*a*c` is negative, the single root
`-b/(2*a)` when it is exactly zero, and the two roots `[q/a, c/q]` with the
sign-selected quadrature term `q` when it is positive; in particular
`(1, 0, -4)` gives the two roots 2 and -2, `(1, -2, 1)` gives the single
root 1, and `(1, 0, 4)` gives no roots. -/
theorem c1_solve_quadratic_equation_spec :
    (∀ a b c : ℝ, a ≠ 0 →
      (b * b - 4 * a * c < 0 → solve_quadratic_equation a b c = []) ∧
      (b * b - 4 * a * c = 0 → solve_quadratic_equation a b c = [-b / (2 * a)]) ∧
      (0 < b * b - 4 * a * c →
        solve_quadratic_equation a b c =
          [quadratic_q b (b * b - 4 * a * c) / a,
           c / quadratic_q b (b * b - 4 * a * c)])) ∧
    solve_quadratic_equation 1 0 (-4) = [2, -2] ∧
    solve_quadratic_equation 1 (-2) 1 = [1] ∧
    solve_quadratic_equation 1 0 4 = [] := by
  refine ⟨?_, ?_, ?_, ?_⟩
  · intro a b c _
    refine ⟨?_, ?_, ?_⟩
    · intro h
      rw [solve_quadratic_equation, if_neg (by linarith), if_neg (by linarith)]
    · intro h
      rw [solve_quadratic_equation, if_neg (by linarith), if_pos h]
    · intro h
      rw [solve_quadratic_equation, if_pos h]
  · have h16 : Real.sqrt (0 * 0 - 4 * 1 * (-4)) = 4 := by
      rw [show (0 * 0 - 4 * 1 * (-4) : ℝ) = 4 ^ 2 by norm_num,
        Real.sqrt_sq (by norm_num : (0:ℝ) ≤ 4)]
    rw [solve_quadratic_equation, if_pos (by norm_num), quadratic_q,
      if_neg (by norm_num), h16]
    norm_num
  · rw [solve_quadratic_equation, if_neg (by norm_num), if_pos (by norm_num)]
    norm_num
  · rw [solve_quadratic_equation, if_neg (by norm_num), if_neg (by norm_num)]

theorem c1_solve_quadratic_equation_spec_witness :
    (1 : ℝ) ≠ 0 ∧ (1 : ℝ) * 1 - 4 * 1 * 2 < 0 ∧
      solve_quadratic_equation 1 1 2 = [] :=
  ⟨by norm_num, by norm_num,
    (c1_solve_quadratic_equation_spec.1 1 1 2 (by norm_num)).1 (by norm_num)⟩

/-- C9: under the precondition a ≠ 0, `solve_quadratic_equation` never divides
by zero: in the positive-discriminant branch the quadrature term
`quadratic_q b delta` is nonzero, and the zero-discriminant branch divides
only by `2*a`, which is nonzero. -/
theorem c9_no_division_by_zero (a b c : ℝ) (ha : a ≠ 0)
    (hd : 0 < b * b - 4 * a * c) :
    quadratic_q b (b * b - 4 * a * c) ≠ 0 ∧ 2 * a ≠ 0 := by
  constructor
  · rw [quadratic_q]
    by_cases hb : 0 < b
    · rw [if_pos hb]
      have hs : 0 ≤ Real.sqrt (b * b - 4 * a * c) := Real.sqrt_nonneg _
      have : 0 < b + Real.sqrt (b * b - 4 * a * c) := by linarith
      intro hc
      nlinarith
    · rw [if_neg hb]
      push_neg at hb
      have hs : 0 < Real.sqrt (b * b - 4 * a * c) := Real.sqrt_pos.2 hd
      have : b - Real.sqrt (b * b - 4 * a * c) < 0 := by linarith
      intro hc
      nlinarith
  · exact mul_ne_zero two_ne_zero ha

theorem c9_no_division_by_zero_witness :
    ((1 : ℝ) ≠ 0 ∧ (0:ℝ) < 0 * 0 - 4 * 1 * (-1)) ∧
      (quadratic_q 0 (0 * 0 - 4 * 1 * (-1)) ≠ 0 ∧ 2 * (1 : ℝ) ≠ 0) :=
  ⟨⟨by norm_num, by norm_num⟩,
    c9_no_division_by_zero 1 0 (-1) (by norm_num) (by norm_num)⟩

/-- Dot product of two 3-vectors, modelling `np.dot` on 3-vectors. -/
def vdot (a b : Vec3) : ℝ := a.x * b.x + a.y * b.y + a.z * b.z

/-- Componentwise difference of 3-vectors. -/
def vsub (a b : Vec3) : Vec3 := ⟨a.x - b.x, a.y - b.y, a.z - b.z⟩

/-- Componentwise sum of 3-vectors. -/
def vadd (a b : Vec3) : Vec3 := ⟨a.x + b.x, a.y + b.y, a.z + b.z⟩

/-- A 3-vector scaled by a scalar on the right (`ray_direction * t`). -/
def vscale (a : Vec3) (t : ℝ) : Vec3 := ⟨a.x * t, a.y * t, a.z * t⟩

/-- A ray, modelling the pyrr ray layout `[origin; direction]`. -/
structure Ray where
  origin : Vec3
  direction : Vec3

/-- A sphere, modelling the pyrr sphere layout `[center; radius]`. -/
structure Sphere where
  center : Vec3
  radius : ℝ

/-- `pysg.math.ray_intersect_sphere` (math.py lines 33-64): builds the
quadratic with `a = 1`, `b = 2*dot(direction, origin - center)`,
`c = dot(origin - center, origin - center) - radius*radius`, keeps only the
parameters `t >= 0` and maps them to `origin + direction * t`. -/
def ray_intersect_sphere (ray : Ray) (sphere : Sphere) : List Vec3 :=
  ((solve_quadratic_equation 1
      (2 * vdot ray.direction (vsub ray.origin sphere.center))
      (vdot (vsub ray.origin sphere.center) (vsub ray.origin sphere.center) -
        sphere.radius * sphere.radius)).filter
    (fun t => decide (0 ≤ t))).map
    (fun t => vadd ray.origin (vscale ray.direction t))

/-- C4: for every ray with normalized direction, `ray_intersect_sphere`
reduces to the quadratic solver with a = 1, b = 2*dot(direction, origin -
center), c = |origin - center|^2 - radius^2, discards roots t < 0 and returns
origin + direction*t for the rest; the ray from (0,0,-10) with direction
(0,0,1) against the unit sphere at the origin yields exactly the points with
z = 1 and z = -1, and the ray aimed away yields no points. -/
theorem c4_ray_intersect_sphere_spec :
    (∀ (ray : Ray) (sphere : Sphere),
      vdot ray.direction ray.direction = 1 →
      ray_intersect_sphere ray sphere =
        ((solve_quadratic_equation 1
            (2 * vdot ray.direction (vsub ray.origin sphere.center))
            (vdot (vsub ray.origin sphere.center) (vsub ray.origin sphere.center) -
              sphere.radius * sphere.radius)).filter
          (fun t => decide (0 ≤ t))).map
          (fun t => vadd ray.origin (vscale ray.direction t))) ∧
    ray_intersect_sphere ⟨⟨0, 0, -10⟩, ⟨0, 0, 1⟩⟩ ⟨⟨0, 0, 0⟩, 1⟩ =
      [⟨0, 0, 1⟩, ⟨0, 0, -1⟩] ∧
    ray_intersect_sphere ⟨⟨0, 0, -10⟩, ⟨0, 0, -1⟩⟩ ⟨⟨0, 0, 0⟩, 1⟩ = [] := by
  have h4 : Real.sqrt 4 = 2 := by
    rw [show (4 : ℝ) = 2 ^ 2 by norm_num, Real.sqrt_sq (by norm_num : (0:ℝ) ≤ 2)]
  refine ⟨fun ray sphere _ => rfl, ?_, ?_⟩
  · have hb : (2 * vdot ⟨0, 0, 1⟩ (vsub ⟨0, 0, -10⟩ ⟨0, 0, 0⟩) : ℝ) = -20 := by
      norm_num [vdot, vsub]
    have hc : (vdot (vsub ⟨0, 0, -10⟩ ⟨0, 0, 0⟩) (vsub ⟨0, 0, -10⟩ ⟨0, 0, 0⟩) -
        (1 : ℝ) * 1 : ℝ) = 99 := by
      norm_num [vdot, vsub]
    rw [ray_intersect_sphere, hb, hc, solve_quadratic_equation,
      if_pos (by norm_num : (0:ℝ) < -20 * -20 - 4 * 1 * 99)]
    have hq : quadratic_q (-20) (-20 * -20 - 4 * 1 * 99) = 11 := by
      rw [quadratic_q, if_neg (by norm_num),
        show ((-20 : ℝ) * -20 - 4 * 1 * 99) = 4 by norm_num, h4]
      norm_num
    rw [hq]
    norm_num [List.filter, List.map, vadd, vscale]
  · have hb : (2 * vdot ⟨0, 0, -1⟩ (vsub ⟨0, 0, -10⟩ ⟨0, 0, 0⟩) : ℝ) = 20 := by
      norm_num [vdot, vsub]
    have hc : (vdot (vsub ⟨0, 0, -10⟩ ⟨0, 0, 0⟩) (vsub ⟨0, 0, -10⟩ ⟨0, 0, 0⟩) -
        (1 : ℝ) * 1 : ℝ) = 99 := by
      norm_num [vdot, vsub]
    rw [ray_intersect_sphere, hb, hc, solve_quadratic_equation,
      if_pos (by norm_num : (0:ℝ) < 20 * 20 - 4 * 1 * 99)]
    have hq : quadratic_q 20 (20 * 20 - 4 * 1 * 99) = -11 := by
      rw [quadratic_q, if_pos (by norm_num),
        show ((20 : ℝ) * 20 - 4 * 1 * 99) = 4 by norm_num, h4]
      norm_num
    rw [hq]
    norm_num [List.filter, List.map]

theorem c4_ray_intersect_sphere_spec_witness :
    vdot ⟨0, 0, 1⟩ ⟨0, 0, 1⟩ = 1 ∧
      ray_intersect_sphere ⟨⟨0, 0, -10⟩, ⟨0, 0, 1⟩⟩ ⟨⟨0, 0, 0⟩, 1⟩ =
        ((solve_quadratic_equation 1
            (2 * vdot (⟨0, 0, 1⟩ : Vec3) (vsub ⟨0, 0, -10⟩ ⟨0, 0, 0⟩))
            (vdot (vsub (⟨0, 0, -10⟩ : Vec3) ⟨0, 0, 0⟩)
                (vsub (⟨0, 0, -10⟩ : Vec3) ⟨0, 0, 0⟩) - (1 : ℝ) * 1)).filter
          (fun t => decide (0 ≤ t))).map
          (fun t => vadd ⟨0, 0, -10⟩ (vscale ⟨0, 0, 1⟩ t)) :=
  ⟨by norm_num [vdot],
    c4_ray_intersect_sphere_spec.1 ⟨⟨0, 0, -10⟩, ⟨0, 0, 1⟩⟩ ⟨⟨0, 0, 0⟩, 1⟩
      (by norm_num [vdot])⟩

/-- Extended rationals: Python finite float values together with `math.inf`
and `-math.inf`, as used for the limits in `is_angle`. -/
inductive XFloat where
  | neg_inf : XFloat
  | val : ℚ → XFloat
  | pos_inf : XFloat

/-- Comparison on `XFloat`, mirroring IEEE comparison of finite values
and the two infinities. -/
def XFloat.le : XFloat → XFloat → Bool
  | .neg_inf, _ => true
  | _, .pos_inf => true
  | .val p, .val q => decide (p ≤ q)
  | _, _ => false

/-- The IEEE double closest to `2 * math.pi`, as an exact rational. -/
def two_pi_float : ℚ := 884279719003555 / 140737488355328

/-- `pysg.math.is_angle` (math.py lines 11-30), for finite float angles.
When `limit_to_circle` the upper limit is 360.0 in degree mode and
`2 * math.pi` in radian mode, and the lower limit is -360.0 (in both modes)
when `allow_negative`, else 0.0; without `limit_to_circle` the limits are
infinite (lower only when `allow_negative`). -/
def is_angle (angle : ℚ) (in_degrees allow_negative limit_to_circle : Bool) :
    Bool :=
  let upper_limit : XFloat :=
    if limit_to_circle then
      (if in_degrees then .val 360 else .val two_pi_float)
    else .pos_inf
  let lower_limit : XFloat :=
    if limit_to_circle then
      (if allow_negative then .val (-360) else .val 0)
    else
      (if allow_negative then .neg_inf else .val 0)
  XFloat.le lower_limit (.val angle) && XFloat.le (.val angle) upper_limit

/-- C10: `is_angle` returns true exactly when lower <= angle <= upper, with
upper = 360 (degrees), `2*pi` (radians) or infinity (no circle limit), and
with the lower bound -360.0 regardless of the unit when both limit_to_circle
and allow_negative hold, so in radians mode any angle in [-360, -2*pi) is
still accepted. -/
theorem c10_is_angle_spec :
    (∀ (angle : ℚ) (in_degrees allow_negative : Bool),
      (is_angle angle in_degrees allow_negative true = true ↔
        ((if allow_negative then (-360 : ℚ) else 0) ≤ angle ∧
          angle ≤ (if in_degrees then (360 : ℚ) else two_pi_float))) ∧
      (is_angle angle in_degrees allow_negative false = true ↔
        (allow_negative = true ∨ 0 ≤ angle))) ∧
    (∀ angle : ℚ, -360 ≤ angle → angle < -two_pi_float →
      is_angle angle false true true = true) := by
  constructor
  · intro angle in_degrees allow_negative
    constructor
    · cases in_degrees <;> cases allow_negative <;>
        simp [is_angle, XFloat.le]
    · cases in_degrees <;> cases allow_negative <;>
        simp [is_angle, XFloat.le]
  · intro angle h1 h2
    have hpos : (0 : ℚ) < two_pi_float := by norm_num [two_pi_float]
    simp [is_angle, XFloat.le]
    exact ⟨h1, by linarith⟩

theorem c10_is_angle_spec_witness :
    ((-360 : ℚ) ≤ -7 ∧ (-7 : ℚ) < -two_pi_float) ∧
      is_angle (-7) false true true = true :=
  ⟨⟨by norm_num, by norm_num [two_pi_float]⟩,
    c10_is_angle_spec.2 (-7) (by norm_num) (by norm_num [two_pi_float])⟩

/-- A quaternion, stored in pyrr order (x, y, z, w). -/
structure Quat where
  x : ℝ
  y : ℝ
  z : ℝ
  w : ℝ

/-- 4-component dot product (`q1.dot(q2)` in pyrr). -/
def qdot (a b : Quat) : ℝ := a.x * b.x + a.y * b.y + a.z * b.z + a.w * b.w

/-- Componentwise negation, the quaternion -q. -/
def qneg (a : Quat) : Quat := ⟨-a.x, -a.y, -a.z, -a.w⟩

/-- Squared norm x^2 + y^2 + z^2 + w^2 of a quaternion (the `unit`
correction factor of quaternion_to_euler_angles). -/
def qnormsq (a : Quat) : ℝ := a.x * a.x + a.y * a.y + a.z * a.z + a.w * a.w

/-- Hamilton product of quaternions, modelling composition of rotations. -/
def qmul (a b : Quat) : Quat :=
  ⟨a.w * b.x + a.x * b.w + a.y * b.z - a.z * b.y,
   a.w * b.y - a.x * b.z + a.y * b.w + a.z * b.x,
   a.w * b.z + a.x * b.y - a.y * b.x + a.z * b.w,
   a.w * b.w - a.x * b.x - a.y * b.y - a.z * b.z⟩

/-- A unit quaternion rotating by 90 degrees about the unit axis
(ux, uy, uz): components (sin 45° · u, cos 45°), with
sin 45° = cos 45° = sqrt 2 / 2. -/
def rotation90 (ux uy uz : ℝ) : Quat :=
  ⟨Real.sqrt 2 / 2 * ux, Real.sqrt 2 / 2 * uy, Real.sqrt 2 / 2 * uz,
   Real.sqrt 2 / 2⟩

/-- The default epsilon of `quaternion_are_equal`, 1e-12. -/
def quaternion_epsilon : ℝ := 1e-12

/-- `pysg.math.quaternion_are_equal` (math.py lines 123-136):
`math.fabs(q1.dot(q2)) > 1 - epsilon`. -/
def quaternion_are_equal (q1 q2 : Quat) (epsilon : ℝ) : Bool :=
  decide (1 - epsilon < |qdot q1 q2|)

/-- C6: `quaternion_are_equal(q1, q2, eps)` is true exactly when
`|dot(q1,q2)| > 1 - eps` (eps defaulting to 1e-12); hence for every unit
quaternion q it accepts (q, q) and (q, -q), while composing q with an extra
90-degree rotation about any unit axis makes it return false. -/
theorem c6_quaternion_are_equal_spec :
    (∀ (q1 q2 : Quat) (epsilon : ℝ),
      (quaternion_are_equal q1 q2 epsilon = true ↔
        1 - epsilon < |qdot q1 q2|)) ∧
    (∀ q : Quat, qnormsq q = 1 →
      quaternion_are_equal q q quaternion_epsilon = true) ∧
    (∀ q : Quat, qnormsq q = 1 →
      quaternion_are_equal q (qneg q) quaternion_epsilon = true) ∧
    (∀ (q : Quat) (ux uy uz : ℝ), qnormsq q = 1 →
      ux * ux + uy * uy + uz * uz = 1 →
      quaternion_are_equal q (qmul q (rotation90 ux uy uz))
        quaternion_epsilon = false) := by
  refine ⟨?_, ?_, ?_, ?_⟩
  · intro q1 q2 epsilon
    simp [quaternion_are_equal]
  · intro q h
    have hd : qdot q q = 1 := by rw [← h]; rfl
    simp only [quaternion_are_equal, hd, quaternion_epsilon]
    rw [decide_eq_true_eq]
    rw [abs_one]
    norm_num
  · intro q h
    have hd : qdot q (qneg q) = -1 := by
      have : qdot q (qneg q) = -qnormsq q := by
        simp only [qdot, qneg, qnormsq]; ring
      rw [this, h]
    simp only [quaternion_are_equal, hd, quaternion_epsilon]
    rw [decide_eq_true_eq]
    rw [abs_neg, abs_one]
    norm_num
  · intro q ux uy uz hq _
    have hd : qdot q (qmul q (rotation90 ux uy uz)) = Real.sqrt 2 / 2 := by
      have hgen : qdot q (qmul q (rotation90 ux uy uz)) =
          qnormsq q * (Real.sqrt 2 / 2) := by
        simp only [qdot, qmul, rotation90, qnormsq]; ring
      rw [hgen, hq, one_mul]
    have hs2 : Real.sqrt 2 < 1.5 := by
      rw [Real.sqrt_lt' (by norm_num : (0:ℝ) < 1.5)]
      norm_num
    simp only [quaternion_are_equal, hd, quaternion_epsilon]
    rw [decide_eq_false_iff_not, not_lt,
      abs_of_nonneg (by positivity : (0:ℝ) ≤ Real.sqrt 2 / 2)]
    nlinarith [Real.sqrt_nonneg 2]

theorem c6_quaternion_are_equal_spec_witness :
    (qnormsq ⟨0, 0, 0, 1⟩ = 1 ∧ (0:ℝ) * 0 + 0 * 0 + 1 * 1 = 1) ∧
      quaternion_are_equal ⟨0, 0, 0, 1⟩
        (qmul ⟨0, 0, 0, 1⟩ (rotation90 0 0 1)) quaternion_epsilon = false :=
  ⟨⟨by norm_num [qnormsq], by norm_num⟩,
    c6_quaternion_are_equal_spec.2.2.2 ⟨0, 0, 0, 1⟩ 0 0 1
      (by norm_num [qnormsq]) (by norm_num)⟩

/-- `math.atan2`, modelled as the argument of the complex number x + y*i:
range (-pi, pi], with atan2 0 0 = 0. -/
def atan2 (y x : ℝ) : ℝ := Complex.arg ⟨x, y⟩

/-- `np.rad2deg`: converts radians to degrees. -/
def rad2deg (r : ℝ) : ℝ := r * (180 / Real.pi)

/-- The `test` value of quaternion_to_euler_angles (math.py line 158):
`x*y + z*w`. -/
def q2e_test (q : Quat) : ℝ := q.x * q.y + q.z * q.w

/-- `pysg.math.quaternion_to_euler_angles` (math.py lines 142-171): converts
a quaternion to euler angles in degrees, YZX order; the returned vector is
(bank, heading, attitude), with `unit = qnormsq q` and `test = q2e_test q`;
north/south pole branches when `test` exceeds ±0.499 * unit. -/
def quaternion_to_euler_angles (q : Quat) : Vec3 :=
  if 0.499 * qnormsq q < q2e_test q then
    ⟨rad2deg 0, rad2deg (2 * atan2 q.x q.w), rad2deg (Real.pi / 2)⟩
  else if q2e_test q < -0.499 * qnormsq q then
    ⟨rad2deg 0, rad2deg (-2 * atan2 q.x q.w), rad2deg (-(Real.pi / 2))⟩
  else
    ⟨rad2deg (atan2 (2 * q.x * q.w - 2 * q.y * q.z)
        (-(q.x * q.x) + q.y * q.y - q.z * q.z + q.w * q.w)),
     rad2deg (atan2 (2 * q.y * q.w - 2 * q.x * q.z)
        (q.x * q.x - q.y * q.y - q.z * q.z + q.w * q.w)),
     rad2deg (Real.arcsin (2 * q2e_test q / qnormsq q))⟩

/-- C5: when `x*y + z*w > 0.499 * (x^2+y^2+z^2+w^2)` the conversion returns
attitude = 90 degrees and bank = 0, and when `x*y + z*w < -0.499` times the
magnitude it returns attitude = -90 degrees and bank = 0, instead of
extracting all three axes. -/
theorem c5_gimbal_lock_poles (q : Quat) :
    (0.499 * qnormsq q < q2e_test q →
      (quaternion_to_euler_angles q).z = 90 ∧
        (quaternion_to_euler_angles q).x = 0) ∧
    (q2e_test q < -0.499 * qnormsq q →
      (quaternion_to_euler_angles q).z = -90 ∧
        (quaternion_to_euler_angles q).x = 0) := by
  have hpi : Real.pi ≠ 0 := Real.pi_ne_zero
  have h90 : rad2deg (Real.pi / 2) = 90 := by
    rw [rad2deg]; field_simp; ring
  have h90n : rad2deg (-(Real.pi / 2)) = -90 := by
    rw [rad2deg]; field_simp; ring
  have h0 : rad2deg 0 = 0 := by rw [rad2deg]; ring
  have hu : 0 ≤ qnormsq q := by
    rw [qnormsq]
    nlinarith [mul_self_nonneg q.x, mul_self_nonneg q.y, mul_self_nonneg q.z,
      mul_self_nonneg q.w]
  constructor
  · intro h
    rw [quaternion_to_euler_angles, if_pos h]
    exact ⟨h90, h0⟩
  · intro h
    have hn : ¬(0.499 * qnormsq q < q2e_test q) := by
      rw [not_lt]
      nlinarith
    rw [quaternion_to_euler_angles, if_neg hn, if_pos h]
    exact ⟨h90n, h0⟩

theorem c5_gimbal_lock_poles_witness :
    (0.499 * qnormsq ⟨1, 1, 0, 0⟩ < q2e_test ⟨1, 1, 0, 0⟩) ∧
      ((quaternion_to_euler_angles ⟨1, 1, 0, 0⟩).z = 90 ∧
        (quaternion_to_euler_angles ⟨1, 1, 0, 0⟩).x = 0) :=
  ⟨by norm_num [qnormsq, q2e_test],
    (c5_gimbal_lock_poles ⟨1, 1, 0, 0⟩).1 (by norm_num [qnormsq, q2e_test])⟩

/-- `pysg.math.euler_angles_to_quaternion` (math.py lines 175-206): builds a
quaternion from euler angles in YZX order; the input vector is
(bank, heading, attitude) and the half-angle cosines and sines are taken of
the raw components, so the input is in radians. -/
def euler_angles_to_quaternion (eulers : Vec3) : Quat :=
  ⟨Real.cos (eulers.y / 2) * Real.cos (eulers.z / 2) * Real.sin (eulers.x / 2) +
     Real.sin (eulers.y / 2) * Real.sin (eulers.z / 2) * Real.cos (eulers.x / 2),
   Real.sin (eulers.y / 2) * Real.cos (eulers.z / 2) * Real.cos (eulers.x / 2) +
     Real.cos (eulers.y / 2) * Real.sin (eulers.z / 2) * Real.sin (eulers.x / 2),
   Real.cos (eulers.y / 2) * Real.sin (eulers.z / 2) * Real.cos (eulers.x / 2) -
     Real.sin (eulers.y / 2) * Real.cos (eulers.z / 2) * Real.sin (eulers.x / 2),
   Real.cos (eulers.y / 2) * Real.cos (eulers.z / 2) * Real.cos (eulers.x / 2) -
     Real.sin (eulers.y / 2) * Real.sin (eulers.z / 2) * Real.sin (eulers.x / 2)⟩

/-- Auxiliary: `atan2` of a positively scaled (sin θ, cos θ) pair recovers θ
on the principal range (-pi, pi]. -/
theorem atan2_sin_cos_scaled (θ r : ℝ) (hr : 0 < r) (h1 : -Real.pi < θ)
    (h2 : θ ≤ Real.pi) : atan2 (Real.sin θ * r) (Real.cos θ * r) = θ := by
  have hc : (⟨Real.cos θ * r, Real.sin θ * r⟩ : ℂ) =
      (r : ℂ) * (Complex.cos θ + Complex.sin θ * Complex.I) := by
    apply Complex.ext <;>
      simp [Complex.mul_re, Complex.mul_im, Complex.cos_ofReal_re,
        Complex.cos_ofReal_im, Complex.sin_ofReal_re, Complex.sin_ofReal_im] <;>
      ring
  rw [atan2, hc, Complex.arg_mul_cos_add_sin_mul_I hr ⟨h1, h2⟩]

/-- Auxiliary: the quaternion produced by `euler_angles_to_quaternion` from
(bank, heading, attitude) has unit norm, and its pole test `x*y + z*w`
equals `sin attitude / 2`. -/
theorem e2q_norm_test (b h a : ℝ) :
    qnormsq (euler_angles_to_quaternion ⟨b, h, a⟩) = 1 ∧
      q2e_test (euler_angles_to_quaternion ⟨b, h, a⟩) = Real.sin a / 2 := by
  have hxv : (euler_angles_to_quaternion ⟨b, h, a⟩).x =
      Real.cos (h / 2) * Real.cos (a / 2) * Real.sin (b / 2) +
        Real.sin (h / 2) * Real.sin (a / 2) * Real.cos (b / 2) := rfl
  have hyv : (euler_angles_to_quaternion ⟨b, h, a⟩).y =
      Real.sin (h / 2) * Real.cos (a / 2) * Real.cos (b / 2) +
        Real.cos (h / 2) * Real.sin (a / 2) * Real.sin (b / 2) := rfl
  have hzv : (euler_angles_to_quaternion ⟨b, h, a⟩).z =
      Real.cos (h / 2) * Real.sin (a / 2) * Real.cos (b / 2) -
        Real.sin (h / 2) * Real.cos (a / 2) * Real.sin (b / 2) := rfl
  have hwv : (euler_angles_to_quaternion ⟨b, h, a⟩).w =
      Real.cos (h / 2) * Real.cos (a / 2) * Real.cos (b / 2) -
        Real.sin (h / 2) * Real.sin (a / 2) * Real.sin (b / 2) := rfl
  constructor
  · have e1 : qnormsq (euler_angles_to_quaternion ⟨b, h, a⟩) =
        (Real.sin (h / 2) ^ 2 + Real.cos (h / 2) ^ 2) *
          ((Real.sin (a / 2) ^ 2 + Real.cos (a / 2) ^ 2) *
            (Real.sin (b / 2) ^ 2 + Real.cos (b / 2) ^ 2)) := by
      rw [qnormsq, hxv, hyv, hzv, hwv]; ring
    rw [e1, Real.sin_sq_add_cos_sq, Real.sin_sq_add_cos_sq,
      Real.sin_sq_add_cos_sq]
    norm_num
  · have e1 : q2e_test (euler_angles_to_quaternion ⟨b, h, a⟩) =
        Real.sin (a / 2) * Real.cos (a / 2) *
          ((Real.sin (h / 2) ^ 2 + Real.cos (h / 2) ^ 2) *
            (Real.sin (b / 2) ^ 2 + Real.cos (b / 2) ^ 2)) := by
      rw [q2e_test, hxv, hyv, hzv, hwv]; ring
    rw [e1, Real.sin_sq_add_cos_sq, Real.sin_sq_add_cos_sq]
    have h2 := Real.sin_two_mul (a / 2)
    rw [(by ring : 2 * (a / 2) = a)] at h2
    rw [mul_one]
    linarith

/-- C2: the euler→quaternion→euler round trip away from gimbal lock: for
bank and heading in (-pi, pi] and attitude in [-pi/2, pi/2] with
|sin attitude| ≤ 0.998 (so the non-pole branch is taken), converting
(bank, heading, attitude) in radians to a quaternion and back yields exactly
the original angles expressed in degrees; in particular the triple
(30, 45, 60) degrees, fed as (pi/6, pi/4, pi/3), round-trips to (30, 45, 60);
and at the pole attitude = 90 degrees the bank component of the result
collapses to 0. -/
theorem c2_euler_quaternion_round_trip :
    (∀ b h a : ℝ, -Real.pi < b → b ≤ Real.pi → -Real.pi < h → h ≤ Real.pi →
      -(Real.pi / 2) ≤ a → a ≤ Real.pi / 2 → |Real.sin a| ≤ 0.998 →
      quaternion_to_euler_angles (euler_angles_to_quaternion ⟨b, h, a⟩) =
        ⟨rad2deg b, rad2deg h, rad2deg a⟩) ∧
    quaternion_to_euler_angles
        (euler_angles_to_quaternion ⟨Real.pi / 6, Real.pi / 4, Real.pi / 3⟩) =
      ⟨30, 45, 60⟩ ∧
    (∀ b h : ℝ,
      (quaternion_to_euler_angles
        (euler_angles_to_quaternion ⟨b, h, Real.pi / 2⟩)).x = 0) := by
  have main : ∀ b h a : ℝ, -Real.pi < b → b ≤ Real.pi → -Real.pi < h →
      h ≤ Real.pi → -(Real.pi / 2) ≤ a → a ≤ Real.pi / 2 →
      |Real.sin a| ≤ 0.998 →
      quaternion_to_euler_angles (euler_angles_to_quaternion ⟨b, h, a⟩) =
        ⟨rad2deg b, rad2deg h, rad2deg a⟩ := by
    intro b h a hb1 hb2 hh1 hh2 ha1 ha2 hs
    obtain ⟨hsa1, hsa2⟩ := abs_le.1 hs
    obtain ⟨hunit, htest⟩ := e2q_norm_test b h a
    have hxv : (euler_angles_to_quaternion ⟨b, h, a⟩).x =
        Real.cos (h / 2) * Real.cos (a / 2) * Real.sin (b / 2) +
          Real.sin (h / 2) * Real.sin (a / 2) * Real.cos (b / 2) := rfl
    have hyv : (euler_angles_to_quaternion ⟨b, h, a⟩).y =
        Real.sin (h / 2) * Real.cos (a / 2) * Real.cos (b / 2) +
          Real.cos (h / 2) * Real.sin (a / 2) * Real.sin (b / 2) := rfl
    have hzv : (euler_angles_to_quaternion ⟨b, h, a⟩).z =
        Real.cos (h / 2) * Real.sin (a / 2) * Real.cos (b / 2) -
          Real.sin (h / 2) * Real.cos (a / 2) * Real.sin (b / 2) := rfl
    have hwv : (euler_angles_to_quaternion ⟨b, h, a⟩).w =
        Real.cos (h / 2) * Real.cos (a / 2) * Real.cos (b / 2) -
          Real.sin (h / 2) * Real.sin (a / 2) * Real.sin (b / 2) := rfl
    have hsin2 : ∀ x : ℝ, Real.sin x = 2 * Real.sin (x / 2) * Real.cos (x / 2) := by
      intro x
      have hx := Real.sin_two_mul (x / 2)
      rw [(by ring : 2 * (x / 2) = x)] at hx
      exact hx
    have hcos2 : ∀ x : ℝ, Real.cos x = Real.cos (x / 2) ^ 2 - Real.sin (x / 2) ^ 2 := by
      intro x
      have hx := Real.cos_two_mul' (x / 2)
      rw [(by ring : 2 * (x / 2) = x)] at hx
      exact hx
    have hca0 : 0 ≤ Real.cos a := Real.cos_nonneg_of_mem_Icc ⟨ha1, ha2⟩
    have hca : 0 < Real.cos a := by
      nlinarith [Real.sin_sq_add_cos_sq a]
    have hn1 : ¬(0.499 * qnormsq (euler_angles_to_quaternion ⟨b, h, a⟩) <
        q2e_test (euler_angles_to_quaternion ⟨b, h, a⟩)) := by
      rw [hunit, htest, not_lt]
      linarith
    have hn2 : ¬(q2e_test (euler_angles_to_quaternion ⟨b, h, a⟩) <
        -0.499 * qnormsq (euler_angles_to_quaternion ⟨b, h, a⟩)) := by
      rw [hunit, htest, not_lt]
      linarith
    have hnum_h : 2 * (euler_angles_to_quaternion ⟨b, h, a⟩).y *
          (euler_angles_to_quaternion ⟨b, h, a⟩).w -
        2 * (euler_angles_to_quaternion ⟨b, h, a⟩).x *
          (euler_angles_to_quaternion ⟨b, h, a⟩).z =
        Real.sin h * Real.cos a := by
      have e1 : 2 * (euler_angles_to_quaternion ⟨b, h, a⟩).y *
            (euler_angles_to_quaternion ⟨b, h, a⟩).w -
          2 * (euler_angles_to_quaternion ⟨b, h, a⟩).x *
            (euler_angles_to_quaternion ⟨b, h, a⟩).z =
          (2 * Real.sin (h / 2) * Real.cos (h / 2)) *
            ((Real.cos (a / 2) ^ 2 - Real.sin (a / 2) ^ 2) *
              (Real.sin (b / 2) ^ 2 + Real.cos (b / 2) ^ 2)) := by
        rw [hxv, hyv, hzv, hwv]; ring
      rw [e1, Real.sin_sq_add_cos_sq, mul_one, ← hsin2, ← hcos2]
    have hden_h : (euler_angles_to_quaternion ⟨b, h, a⟩).x *
            (euler_angles_to_quaternion ⟨b, h, a⟩).x -
          (euler_angles_to_quaternion ⟨b, h, a⟩).y *
            (euler_angles_to_quaternion ⟨b, h, a⟩).y -
          (euler_angles_to_quaternion ⟨b, h, a⟩).z *
            (euler_angles_to_quaternion ⟨b, h, a⟩).z +
          (euler_angles_to_quaternion ⟨b, h, a⟩).w *
            (euler_angles_to_quaternion ⟨b, h, a⟩).w =
        Real.cos h * Real.cos a := by
      have e1 : (euler_angles_to_quaternion ⟨b, h, a⟩).x *
            (euler_angles_to_quaternion ⟨b, h, a⟩).x -
          (euler_angles_to_quaternion ⟨b, h, a⟩).y *
            (euler_angles_to_quaternion ⟨b, h, a⟩).y -
          (euler_angles_to_quaternion ⟨b, h, a⟩).z *
            (euler_angles_to_quaternion ⟨b, h, a⟩).z +
          (euler_angles_to_quaternion ⟨b, h, a⟩).w *
            (euler_angles_to_quaternion ⟨b, h, a⟩).w =
          (Real.cos (h / 2) ^ 2 - Real.sin (h / 2) ^ 2) *
            ((Real.cos (a / 2) ^ 2 - Real.sin (a / 2) ^ 2) *
              (Real.sin (b / 2) ^ 2 + Real.cos (b / 2) ^ 2)) := by
        rw [hxv, hyv, hzv, hwv]; ring
      rw [e1, Real.sin_sq_add_cos_sq, mul_one, ← hcos2, ← hcos2]
    have hnum_b : 2 * (euler_angles_to_quaternion ⟨b, h, a⟩).x *
          (euler_angles_to_quaternion ⟨b, h, a⟩).w -
        2 * (euler_angles_to_quaternion ⟨b, h, a⟩).y *
          (euler_angles_to_quaternion ⟨b, h, a⟩).z =
        Real.sin b * Real.cos a := by
      have e1 : 2 * (euler_angles_to_quaternion ⟨b, h, a⟩).x *
            (euler_angles_to_quaternion ⟨b, h, a⟩).w -
          2 * (euler_angles_to_quaternion ⟨b, h, a⟩).y *
            (euler_angles_to_quaternion ⟨b, h, a⟩).z =
          (2 * Real.sin (b / 2) * Real.cos (b / 2)) *
            ((Real.cos (a / 2) ^ 2 - Real.sin (a / 2) ^ 2) *
              (Real.sin (h / 2) ^ 2 + Real.cos (h / 2) ^ 2)) := by
        rw [hxv, hyv, hzv, hwv]; ring
      rw [e1, Real.sin_sq_add_cos_sq, mul_one, ← hsin2, ← hcos2]
    have hden_b : -((euler_angles_to_quaternion ⟨b, h, a⟩).x *
            (euler_angles_to_quaternion ⟨b, h, a⟩).x) +
          (euler_angles_to_quaternion ⟨b, h, a⟩).y *
            (euler_angles_to_quaternion ⟨b, h, a⟩).y -
          (euler_angles_to_quaternion ⟨b, h, a⟩).z *
            (euler_angles_to_quaternion ⟨b, h, a⟩).z +
          (euler_angles_to_quaternion ⟨b, h, a⟩).w *
            (euler_angles_to_quaternion ⟨b, h, a⟩).w =
        Real.cos b * Real.cos a := by
      have e1 : -((euler_angles_to_quaternion ⟨b, h, a⟩).x *
            (euler_angles_to_quaternion ⟨b, h, a⟩).x) +
          (euler_angles_to_quaternion ⟨b, h, a⟩).y *
            (euler_angles_to_quaternion ⟨b, h, a⟩).y -
          (euler_angles_to_quaternion ⟨b, h, a⟩).z *
            (euler_angles_to_quaternion ⟨b, h, a⟩).z +
          (euler_angles_to_quaternion ⟨b, h, a⟩).w *
            (euler_angles_to_quaternion ⟨b, h, a⟩).w =
          (Real.cos (b / 2) ^ 2 - Real.sin (b / 2) ^ 2) *
            ((Real.cos (a / 2) ^ 2 - Real.sin (a / 2) ^ 2) *
              (Real.sin (h / 2) ^ 2 + Real.cos (h / 2) ^ 2)) := by
        rw [hxv, hyv, hzv, hwv]; ring
      rw [e1, Real.sin_sq_add_cos_sq, mul_one, ← hcos2, ← hcos2]
    rw [quaternion_to_euler_angles, if_neg hn1, if_neg hn2,
      hnum_b, hden_b, hnum_h, hden_h, htest, hunit,
      atan2_sin_cos_scaled b (Real.cos a) hca hb1 hb2,
      atan2_sin_cos_scaled h (Real.cos a) hca hh1 hh2,
      (by ring : 2 * (Real.sin a / 2) / 1 = Real.sin a),
      Real.arcsin_sin ha1 ha2]
  refine ⟨main, ?_, ?_⟩
  · have hp := Real.pi_pos
    have h7 : |Real.sin (Real.pi / 3)| ≤ 0.998 := by
      rw [Real.sin_pi_div_three, abs_of_nonneg (by positivity)]
      have h3 : Real.sqrt 3 < 1.8 := by
        rw [Real.sqrt_lt' (by norm_num : (0:ℝ) < 1.8)]
        norm_num
      linarith
    have hmain := main (Real.pi / 6) (Real.pi / 4) (Real.pi / 3)
      (by linarith) (by linarith) (by linarith) (by linarith)
      (by linarith) (by linarith) h7
    have h30 : rad2deg (Real.pi / 6) = 30 := by
      rw [rad2deg]; field_simp [Real.pi_ne_zero]; ring
    have h45 : rad2deg (Real.pi / 4) = 45 := by
      rw [rad2deg]; field_simp [Real.pi_ne_zero]; ring
    have h60 : rad2deg (Real.pi / 3) = 60 := by
      rw [rad2deg]; field_simp [Real.pi_ne_zero]; ring
    rw [hmain, h30, h45, h60]
  · intro b h
    obtain ⟨hunit, htest⟩ := e2q_norm_test b h (Real.pi / 2)
    have hcond : 0.499 * qnormsq (euler_angles_to_quaternion
          ⟨b, h, Real.pi / 2⟩) <
        q2e_test (euler_angles_to_quaternion ⟨b, h, Real.pi / 2⟩) := by
      rw [hunit, htest, Real.sin_pi_div_two]
      norm_num
    rw [quaternion_to_euler_angles, if_pos hcond]
    show rad2deg 0 = 0
    rw [rad2deg]; ring

theorem c2_euler_quaternion_round_trip_witness :
    (-Real.pi < Real.pi / 6 ∧ Real.pi / 6 ≤ Real.pi ∧
      -Real.pi < Real.pi / 4 ∧ Real.pi / 4 ≤ Real.pi ∧
      -(Real.pi / 2) ≤ Real.pi / 3 ∧ Real.pi / 3 ≤ Real.pi / 2 ∧
      |Real.sin (Real.pi / 3)| ≤ 0.998) ∧
    quaternion_to_euler_angles
        (euler_angles_to_quaternion ⟨Real.pi / 6, Real.pi / 4, Real.pi / 3⟩) =
      ⟨rad2deg (Real.pi / 6), rad2deg (Real.pi / 4), rad2deg (Real.pi / 3)⟩ := by
  have hp := Real.pi_pos
  have h7 : |Real.sin (Real.pi / 3)| ≤ 0.998 := by
    rw [Real.sin_pi_div_three, abs_of_nonneg (by positivity)]
    have h3 : Real.sqrt 3 < 1.8 := by
      rw [Real.sqrt_lt' (by norm_num : (0:ℝ) < 1.8)]
      norm_num
    linarith
  exact ⟨⟨by linarith, by linarith, by linarith, by linarith, by linarith,
      by linarith, h7⟩,
    c2_euler_quaternion_round_trip.1 (Real.pi / 6) (Real.pi / 4) (Real.pi / 3)
      (by linarith) (by linarith) (by linarith) (by linarith) (by linarith)
      (by linarith) h7⟩

/-- The numpy memory layout of the translation matrix built literally in
`compose_matrix` (math.py lines 110-113): the position sits in the fourth
row (pyrr's row-vector convention; OpenGL reads the same buffer
column-major). -/
def translation_matrix_np (position : Vec3) : Matrix (Fin 4) (Fin 4) ℝ :=
  Matrix.of ![![1, 0, 0, 0], ![0, 1, 0, 0], ![0, 0, 1, 0],
    ![position.x, position.y, position.z, 1]]

/-- The numpy memory layout of the scale matrix built literally in
`compose_matrix` (math.py lines 115-118): diagonal (sx, sy, sz, 1). -/
def scale_matrix_np (scale : Vec3) : Matrix (Fin 4) (Fin 4) ℝ :=
  Matrix.of ![![scale.x, 0, 0, 0], ![0, scale.y, 0, 0], ![0, 0, scale.z, 0],
    ![0, 0, 0, 1]]

/-- Modelled from pyrr (external dependency): `Quaternion.matrix44`, the
rotation matrix of a quaternion in pyrr's row-vector layout — the transpose
of the standard column-vector rotation matrix — including pyrr's `invs`
normalization factor `1 / (x^2 + y^2 + z^2 + w^2)`. -/
def rotation_matrix_np (q : Quat) : Matrix (Fin 4) (Fin 4) ℝ :=
  let invs := 1 / (q.x * q.x + q.y * q.y + q.z * q.z + q.w * q.w)
  Matrix.of
    ![![(q.x * q.x - q.y * q.y - q.z * q.z + q.w * q.w) * invs,
        2 * (q.x * q.y + q.z * q.w) * invs,
        2 * (q.x * q.z - q.y * q.w) * invs, 0],
      ![2 * (q.x * q.y - q.z * q.w) * invs,
        (-(q.x * q.x) + q.y * q.y - q.z * q.z + q.w * q.w) * invs,
        2 * (q.y * q.z + q.x * q.w) * invs, 0],
      ![2 * (q.x * q.z + q.y * q.w) * invs,
        2 * (q.y * q.z - q.x * q.w) * invs,
        (-(q.x * q.x) - q.y * q.y + q.z * q.z + q.w * q.w) * invs, 0],
      ![0, 0, 0, 1]]

/-- Modelled from pyrr (external dependency): the object-API product
`m1 * m2` delegates to `matrix44.multiply(m2, m1)`, i.e. `np.dot(m2, m1)`,
so that chained `*` reads like column-vector composition. -/
def pyrr_mul (m1 m2 : Matrix (Fin 4) (Fin 4) ℝ) : Matrix (Fin 4) (Fin 4) ℝ :=
  m2 * m1

/-- `pysg.math.compose_matrix` (math.py lines 99-119):
`translation_matrix * rotation_matrix * scale_matrix` using pyrr's `*`. -/
def compose_matrix (position : Vec3) (quaternion : Quat) (scale : Vec3) :
    Matrix (Fin 4) (Fin 4) ℝ :=
  pyrr_mul (pyrr_mul (translation_matrix_np position)
    (rotation_matrix_np quaternion)) (scale_matrix_np scale)

/-- Spec-side definition: the standard column-vector translation matrix,
with the position in the fourth column. -/
def translation_matrix_col (position : Vec3) : Matrix (Fin 4) (Fin 4) ℝ :=
  Matrix.of ![![1, 0, 0, position.x], ![0, 1, 0, position.y],
    ![0, 0, 1, position.z], ![0, 0, 0, 1]]

/-- Spec-side definition: the standard column-vector rotation matrix of a
unit quaternion. -/
def rotation_matrix_col (q : Quat) : Matrix (Fin 4) (Fin 4) ℝ :=
  Matrix.of
    ![![1 - 2 * (q.y * q.y + q.z * q.z), 2 * (q.x * q.y - q.z * q.w),
        2 * (q.x * q.z + q.y * q.w), 0],
      ![2 * (q.x * q.y + q.z * q.w), 1 - 2 * (q.x * q.x + q.z * q.z),
        2 * (q.y * q.z - q.x * q.w), 0],
      ![2 * (q.x * q.z - q.y * q.w), 2 * (q.y * q.z + q.x * q.w),
        1 - 2 * (q.x * q.x + q.y * q.y), 0],
      ![0, 0, 0, 1]]

/-- Spec-side definition: the standard column-vector scale matrix, diagonal
(sx, sy, sz, 1). -/
def scale_matrix_col (scale : Vec3) : Matrix (Fin 4) (Fin 4) ℝ :=
  Matrix.of ![![scale.x, 0, 0, 0], ![0, scale.y, 0, 0], ![0, 0, scale.z, 0],
    ![0, 0, 0, 1]]

/-- Auxiliary: the literal translation layout is the transpose of the
column-vector translation matrix. -/
theorem translation_np_transpose (p : Vec3) :
    Matrix.transpose (translation_matrix_np p) = translation_matrix_col p := by
  ext i j
  fin_cases i <;> fin_cases j <;>
    simp [translation_matrix_np, translation_matrix_col,
      Matrix.transpose_apply, Matrix.vecHead, Matrix.vecTail]

/-- Auxiliary: the scale layout is symmetric. -/
theorem scale_np_transpose (s : Vec3) :
    Matrix.transpose (scale_matrix_np s) = scale_matrix_col s := by
  ext i j
  fin_cases i <;> fin_cases j <;>
    simp [scale_matrix_np, scale_matrix_col, Matrix.transpose_apply,
      Matrix.vecHead, Matrix.vecTail]

/-- Auxiliary: for a unit quaternion, pyrr's row-vector rotation layout is
the transpose of the standard column-vector rotation matrix. -/
theorem rotation_np_transpose (q : Quat) (hq : qnormsq q = 1) :
    Matrix.transpose (rotation_matrix_np q) = rotation_matrix_col q := by
  rw [qnormsq] at hq
  ext i j
  fin_cases i <;> fin_cases j <;>
    simp [rotation_matrix_np, rotation_matrix_col, Matrix.transpose_apply,
      Matrix.vecHead, Matrix.vecTail, hq] <;>
    linear_combination hq

/-- C7: for every position p, unit quaternion q and scale s, the composed
matrix — read in OpenGL column-major layout, i.e. transposed from its numpy
memory layout — equals translation-matrix × rotation-matrix(q) ×
scale-matrix in exactly that order, so the composed transform applies scale
first, then rotation, then translation to a column vector. -/
theorem c7_compose_matrix_order (position scale : Vec3) (q : Quat)
    (hq : qnormsq q = 1) :
    Matrix.transpose (compose_matrix position q scale) =
      translation_matrix_col position * rotation_matrix_col q *
        scale_matrix_col scale ∧
    ∀ v : Fin 4 → ℝ,
      Matrix.mulVec (Matrix.transpose (compose_matrix position q scale)) v =
        Matrix.mulVec (translation_matrix_col position)
          (Matrix.mulVec (rotation_matrix_col q)
            (Matrix.mulVec (scale_matrix_col scale) v)) := by
  have hmain : Matrix.transpose (compose_matrix position q scale) =
      translation_matrix_col position * rotation_matrix_col q *
        scale_matrix_col scale := by
    rw [compose_matrix, pyrr_mul, pyrr_mul, Matrix.transpose_mul,
      Matrix.transpose_mul, translation_np_transpose, scale_np_transpose,
      rotation_np_transpose q hq]
  refine ⟨hmain, fun v => ?_⟩
  rw [hmain, Matrix.mulVec_mulVec, Matrix.mulVec_mulVec]

theorem c7_compose_matrix_order_witness :
    qnormsq ⟨0, 0, 0, 1⟩ = 1 ∧
      (Matrix.transpose (compose_matrix ⟨1, 2, 3⟩ ⟨0, 0, 0, 1⟩ ⟨2, 2, 2⟩) =
        translation_matrix_col ⟨1, 2, 3⟩ * rotation_matrix_col ⟨0, 0, 0, 1⟩ *
          scale_matrix_col ⟨2, 2, 2⟩ ∧
      ∀ v : Fin 4 → ℝ,
        Matrix.mulVec
            (Matrix.transpose (compose_matrix ⟨1, 2, 3⟩ ⟨0, 0, 0, 1⟩ ⟨2, 2, 2⟩))
            v =
          Matrix.mulVec (translation_matrix_col ⟨1, 2, 3⟩)
            (Matrix.mulVec (rotation_matrix_col ⟨0, 0, 0, 1⟩)
              (Matrix.mulVec (scale_matrix_col ⟨2, 2, 2⟩) v))) :=
  ⟨by norm_num [qnormsq],
    c7_compose_matrix_order ⟨1, 2, 3⟩ ⟨2, 2, 2⟩ ⟨0, 0, 0, 1⟩
      (by norm_num [qnormsq])⟩

/-- The geometry kinds Renderer._render dispatches on via issubclass checks
(renderer.py lines 87-94), plus `other` for a geometry object of none of the
four drawable types. -/
inductive GeoKind where
  | plane
  | icosahedron
  | cube
  | circle
  | other
deriving DecidableEq

/-- One observable step of Renderer._render (renderer.py lines 61-96). -/
inductive RenderEvent where
  | clear
  | scene_update_world_matrix
  | camera_update_world_matrix
  | compute_view_projection
  | write_view_projection
  | set_ambient_light
  | set_point_light
  | write_model_matrix
  | set_object_color
  | set_model_size
  | draw (kind : GeoKind)
deriving DecidableEq

/-- The scene state consulted by Renderer._render: the auto_update flag, the
render list's geometry kinds in order, and its point lights. -/
structure SceneState where
  auto_update : Bool
  geometry : List GeoKind
  point_lights : List Unit

/-- The camera state consulted by Renderer._render: whether its `_parent`
back-reference is set. -/
structure CameraState where
  parent : Option Unit

/-- The events of one iteration of the geometry loop (renderer.py lines
83-96): the model matrix, color and size uniforms are written, then the
matching vertex array is drawn. For a geometry kind with no draw target the
source executes `assert NotImplementedError(object_3d, "...")`: this asserts
a freshly constructed exception instance, which is truthy, so the assert
passes, nothing is raised, and no draw call is issued. -/
def geometry_pass (kind : GeoKind) : List RenderEvent :=
  [RenderEvent.write_model_matrix, RenderEvent.set_object_color,
    RenderEvent.set_model_size] ++
  (match kind with
   | .plane => [RenderEvent.draw .plane]
   | .icosahedron => [RenderEvent.draw .icosahedron]
   | .cube => [RenderEvent.draw .cube]
   | .circle => [RenderEvent.draw .circle]
   | .other => [])

/-- The event trace of one call to Renderer._render (renderer.py lines
61-96): clear, conditional scene world-matrix refresh, conditional camera
world-matrix refresh, computation and upload of the view-projection matrix
(`camera.projection_matrix * camera.world_matrix.inverse`), ambient light,
the first point light if present, then the geometry loop. -/
def render_trace (scene : SceneState) (camera : CameraState) :
    List RenderEvent :=
  [RenderEvent.clear] ++
  (if scene.auto_update then [RenderEvent.scene_update_world_matrix]
   else []) ++
  (if camera.parent = none then [RenderEvent.camera_update_world_matrix]
   else []) ++
  [RenderEvent.compute_view_projection, RenderEvent.write_view_projection,
    RenderEvent.set_ambient_light] ++
  (if 0 < scene.point_lights.length then [RenderEvent.set_point_light]
   else []) ++
  List.flatten (scene.geometry.map geometry_pass)

/-- The errors Renderer._render could in principle propagate to its caller.
In the source no branch of the geometry loop raises (the unknown-kind branch
only asserts a truthy exception instance), so the result is always ok. -/
inductive RenderError where
  | not_implemented
deriving DecidableEq

/-- Renderer._render as a fallible computation: it always completes with the
full event trace and never propagates an error. -/
def render (scene : SceneState) (camera : CameraState) :
    Except RenderError (List RenderEvent) :=
  Except.ok (render_trace scene camera)

/-- Auxiliary: every event of the point-light/geometry tail of the trace is a
uniform write, a draw, or the point-light setup — never one of the two
world-matrix refreshes nor the view-projection computation. -/
theorem render_tail_events (scene : SceneState) (e : RenderEvent) :
    e ∈ (if 0 < scene.point_lights.length
          then [RenderEvent.set_point_light] else []) ++
        List.flatten (scene.geometry.map geometry_pass) →
      e = RenderEvent.set_point_light ∨ e = RenderEvent.write_model_matrix ∨
      e = RenderEvent.set_object_color ∨ e = RenderEvent.set_model_size ∨
      ∃ k, e = RenderEvent.draw k := by
  intro he
  rcases List.mem_append.1 he with h | h
  · by_cases hc : 0 < scene.point_lights.length
    · rw [if_pos hc] at h
      left
      simpa using h
    · rw [if_neg hc] at h
      simp at h
  · right
    rcases List.mem_flatten.1 h with ⟨l, hl, hel⟩
    rcases List.mem_map.1 hl with ⟨k, _, rfl⟩
    cases k <;> simp [geometry_pass] at hel <;> tauto

/-- C3 (the code, as written): when the geometry loop encounters an object
whose type is none of PlaneObject3D, IcosahedronObject3D, CubeObject3D, or
CircleObject3D, no NotImplementedError reaches the caller: `_render` always
returns ok, and on the render list [other, cube] it silently skips the
unknown object (uniforms written, no draw, no error) and still draws the
following cube. -/
theorem c3_unknown_geometry_not_raised :
    (∀ (scene : SceneState) (camera : CameraState),
      render scene camera = Except.ok (render_trace scene camera)) ∧
    render ⟨true, [GeoKind.other, GeoKind.cube], []⟩ ⟨none⟩ =
      Except.ok
        [RenderEvent.clear, RenderEvent.scene_update_world_matrix,
         RenderEvent.camera_update_world_matrix,
         RenderEvent.compute_view_projection,
         RenderEvent.write_view_projection, RenderEvent.set_ambient_light,
         RenderEvent.write_model_matrix, RenderEvent.set_object_color,
         RenderEvent.set_model_size,
         RenderEvent.write_model_matrix, RenderEvent.set_object_color,
         RenderEvent.set_model_size, RenderEvent.draw GeoKind.cube] := by
  refine ⟨fun scene camera => rfl, ?_⟩
  rfl

/-- C8: on every call to Renderer._render the scene's world matrices are
refreshed iff scene.auto_update is enabled, the camera's own
update_world_matrix runs iff the camera has no parent, and both refreshes
happen before the view-projection matrix is computed from the camera's
projection matrix and inverted world matrix; that computation occurs exactly
once in the trace. -/
theorem c8_update_before_view_projection (scene : SceneState)
    (camera : CameraState) :
    ∃ pre post : List RenderEvent,
      render_trace scene camera =
        pre ++ RenderEvent.compute_view_projection :: post ∧
      (RenderEvent.scene_update_world_matrix ∈ pre ↔
        scene.auto_update = true) ∧
      (RenderEvent.camera_update_world_matrix ∈ pre ↔
        camera.parent = none) ∧
      RenderEvent.scene_update_world_matrix ∉ post ∧
      RenderEvent.camera_update_world_matrix ∉ post ∧
      RenderEvent.compute_view_projection ∉ pre ∧
      RenderEvent.compute_view_projection ∉ post := by
  refine ⟨[RenderEvent.clear] ++
      (if scene.auto_update then [RenderEvent.scene_update_world_matrix]
       else []) ++
      (if camera.parent = none then [RenderEvent.camera_update_world_matrix]
       else []),
    [RenderEvent.write_view_projection, RenderEvent.set_ambient_light] ++
      ((if 0 < scene.point_lights.length then [RenderEvent.set_point_light]
        else []) ++
       List.flatten (scene.geometry.map geometry_pass)),
    ?_, ?_, ?_, ?_, ?_, ?_, ?_⟩
  · simp [render_trace, List.append_assoc]
  · cases hau : scene.auto_update <;> cases hpar : camera.parent <;>
      simp [hau, hpar]
  · cases hau : scene.auto_update <;> cases hpar : camera.parent <;>
      simp [hau, hpar]
  · intro h
    rcases List.mem_append.1 h with h2 | h2
    · simp at h2
    · rcases render_tail_events scene _ h2 with h3 | h3 | h3 | h3 | ⟨k, h3⟩ <;>
        simp at h3
  · intro h
    rcases List.mem_append.1 h with h2 | h2
    · simp at h2
    · rcases render_tail_events scene _ h2 with h3 | h3 | h3 | h3 | ⟨k, h3⟩ <;>
        simp at h3
  · cases hau : scene.auto_update <;> cases hpar : camera.parent <;>
      simp [hau, hpar]
  · intro h
    rcases List.mem_append.1 h with h2 | h2
    · simp at h2
    · rcases render_tail_events scene _ h2 with h3 | h3 | h3 | h3 | ⟨k, h3⟩ <;>
        simp at h3

end
